import Mathlib

/-!
Shallow embedding of `process_invoices.py` (Mother India invoice/receipt
processing).  Python floats are modelled as rationals, Python strings as
`String`/`List Char`, raised exceptions as `Except PyError`.  The three
item regexes `^(.+?)\s+(\d+)\s+([\d.]+)\s+([\d.]+)$`,
`^(.+?)\s+(\d+)\s+([\d.]+)$` and `^(.+?)\s+([\d.]+)$` share the shape
"lazy description, then whitespace-separated greedy character-class
groups, anchored at both ends"; since the group classes are disjoint
from whitespace, Python's backtracking semantics coincide with
maximal-munch on the tail and shortest-description search, which is what
`reMatch` implements.
-/

/-- ASCII whitespace as matched by Python's `\s` and stripped by `str.strip()`. -/
def isSpaceCh (c : Char) : Bool :=
  c = ' ' || c = '\t' || c = '\n' || c = '\r' || c = '\x0b' || c = '\x0c'

/-- ASCII digit, Python's `\d`. -/
def isDigitCh (c : Char) : Bool :=
  '0' ≤ c && c ≤ '9'

/-- The character class `[\d.]`. -/
def isDigitDot (c : Char) : Bool :=
  isDigitCh c || c = '.'

/-- Python `str.strip()`: drop whitespace from both ends. -/
def stripL (l : List Char) : List Char :=
  ((l.dropWhile isSpaceCh).reverse.dropWhile isSpaceCh).reverse

/-- Python `str.upper()` (ASCII letters). -/
def upperL (l : List Char) : List Char :=
  l.map Char.toUpper

/-- Python's substring test `pat in s`. -/
def containsSeq (pat : List Char) : List Char → Bool
  | [] => pat.isEmpty
  | c :: rest => pat.isPrefixOf (c :: rest) || containsSeq pat rest

/-- Python `text.split('\n')`. -/
def splitLinesAux (cur : List Char) : List Char → List (List Char)
  | [] => [cur.reverse]
  | c :: rest =>
    if c = '\n' then cur.reverse :: splitLinesAux [] rest
    else splitLinesAux (c :: cur) rest

def splitLines (l : List Char) : List (List Char) :=
  splitLinesAux [] l

/-- Code-point lexicographic `≤` on strings, as used by Python when
sorting the globbed file paths. -/
def listLexLe : List Char → List Char → Bool
  | [], _ => true
  | _ :: _, [] => false
  | a :: l1, b :: l2 => if a = b then listLexLe l1 l2 else decide (a.toNat < b.toNat)

/-- Value of a digit string, e.g. `int(group)` for a `\d+` group. -/
def digitsVal (l : List Char) : ℕ :=
  l.foldl (fun a c => 10 * a + (c.toNat - 48)) 0

def digitsToInt (l : List Char) : ℤ :=
  (digitsVal l : ℤ)

/-- Python `float(s)` restricted to strings drawn from `[\d.]+`:
succeeds exactly when there is at most one dot and at least one digit,
producing the decimal value. -/
def parseFloat (l : List Char) : Option ℚ :=
  if (l.dropWhile isDigitCh).isEmpty then
    if (l.takeWhile isDigitCh).isEmpty then none
    else some (digitsVal (l.takeWhile isDigitCh) : ℚ)
  else if (l.dropWhile isDigitCh).headD ' ' = '.' ∧
      ((l.dropWhile isDigitCh).tail).all isDigitCh ∧
      (¬ (l.takeWhile isDigitCh).isEmpty ∨ ¬ ((l.dropWhile isDigitCh).tail).isEmpty) then
    some ((digitsVal (l.takeWhile isDigitCh) : ℚ) +
      (digitsVal ((l.dropWhile isDigitCh).tail) : ℚ) /
        (10 ^ ((l.dropWhile isDigitCh).tail).length : ℚ))
  else none

/-- Exceptions raised by the Python code paths we model. -/
inductive PyError where
  | valueError (s : String)
  | extractionError (s : String)
deriving DecidableEq

/-- `float(s)` as an expression that can raise `ValueError`. -/
def toFloatE (l : List Char) : Except PyError ℚ :=
  match parseFloat l with
  | some q => .ok q
  | none => .error (.valueError (String.mk l))

/-- Matcher for the anchored pattern tail `\s+(C₁+)\s+(C₂+)…$`:
each `\s+` run and each class group is maximal, which (classes being
disjoint from whitespace) is exactly the regex semantics. -/
def matchTail (classes : List (Char → Bool)) (s : List Char) : Option (List (List Char)) :=
  match classes with
  | [] => if s.isEmpty then some [] else none
  | cl :: rest =>
    let w := s.takeWhile isSpaceCh
    let s1 := s.dropWhile isSpaceCh
    if w.isEmpty then none
    else
      let g := s1.takeWhile cl
      let s2 := s1.dropWhile cl
      if g.isEmpty then none
      else (matchTail rest s2).map (g :: ·)

/-- Lazy `(.+?)`: try the shortest non-empty description first, exactly
like Python's backtracking; `.` does not match a newline. -/
def matchLazyAux (classes : List (Char → Bool)) (desc : List Char) :
    List Char → Option (List Char × List (List Char))
  | [] => none
  | c :: rest =>
    if c = '\n' then none
    else
      match matchTail classes rest with
      | some gs => some (desc ++ [c], gs)
      | none => matchLazyAux classes (desc ++ [c]) rest

/-- `re.match(r'^(.+?)\s+(C₁+)\s+…$', s)`: group 1 and the class groups. -/
def reMatch (classes : List (Char → Bool)) (s : List Char) :
    Option (List Char × List (List Char)) :=
  matchLazyAux classes [] s

/-- A parsed line item (`{'description', 'quantity', 'rate', 'amount'}`). -/
structure LineItem where
  description : String
  quantity : ℤ
  rate : ℚ
  amount : ℚ
deriving DecidableEq

/-- `'DESCRIPTION' in line and 'QTY' in line and 'RATE' in line`. -/
def isHeaderLine (s : List Char) : Bool :=
  containsSeq "DESCRIPTION".data s && containsSeq "QTY".data s && containsSeq "RATE".data s

/-- `'VERIFIED' in line or 'TOTAL DUE' in line or 'PAYMENT' in line`. -/
def isStopLine (s : List Char) : Bool :=
  containsSeq "VERIFIED".data s || containsSeq "TOTAL DUE".data s || containsSeq "PAYMENT".data s

/-- `any(term in description.upper() for term in ['BILL TO','SHIP TO','INVOICE'])`. -/
def skipTermsBasic (desc : List Char) : Bool :=
  containsSeq "BILL TO".data (upperL desc) || containsSeq "SHIP TO".data (upperL desc) ||
    containsSeq "INVOICE".data (upperL desc)

/-- Receipt pattern-2 skip list: summary terms plus the basic ones. -/
def skipTermsSummary (desc : List Char) : Bool :=
  containsSeq "TOTAL".data (upperL desc) || containsSeq "TAX".data (upperL desc) ||
    containsSeq "SUBTOTAL".data (upperL desc) || containsSeq "PAYMENT".data (upperL desc) ||
    containsSeq "CHANGE".data (upperL desc) || containsSeq "CASH".data (upperL desc) ||
    containsSeq "CREDIT".data (upperL desc) || containsSeq "BILL TO".data (upperL desc) ||
    containsSeq "SHIP TO".data (upperL desc) || containsSeq "INVOICE".data (upperL desc)

/-- Body of the invoice item loop for one in-section, non-blank,
already-stripped line: regex match, skip-term filter, then the `int`
and `float` conversions (which can raise). -/
def invoiceItemOfLine (s : List Char) : Except PyError (Option LineItem) :=
  match reMatch [isDigitCh, isDigitDot, isDigitDot] s with
  | some (g1, [qs, rs, amts]) =>
    if skipTermsBasic (stripL g1) then .ok none
    else
      match toFloatE rs with
      | .error e => .error e
      | .ok r =>
        match toFloatE amts with
        | .error e => .error e
        | .ok a => .ok (some ⟨String.mk (stripL g1), digitsToInt qs, r, a⟩)
  | _ => .ok none

/-- The invoice line loop of `parse_line_items`, carrying the
`in_items_section` flag. -/
def parseLinesGo : Bool → List (List Char) → Except PyError (List LineItem)
  | _, [] => .ok []
  | inSec, l :: ls =>
    let s := stripL l
    if isHeaderLine s then parseLinesGo true ls
    else if isStopLine s then parseLinesGo false ls
    else if !inSec || s.isEmpty then parseLinesGo inSec ls
    else
      match invoiceItemOfLine s with
      | .error e => .error e
      | .ok it =>
        match parseLinesGo inSec ls with
        | .error e => .error e
        | .ok rest => .ok (it.toList ++ rest)

/-- `InvoiceProcessor.parse_line_items`. -/
def parse_line_items (text : String) : Except PyError (List LineItem) :=
  parseLinesGo false (splitLines text.data)

/-- Body of the receipt item loop for one non-blank stripped line:
pattern 1 (`desc qty amount`) first, else pattern 2 (`desc amount`). -/
def receiptItemOfLine (s : List Char) : Except PyError (List LineItem) :=
  match reMatch [isDigitCh, isDigitDot] s with
  | some (g1, [qs, amts]) =>
    if skipTermsBasic (stripL g1) then .ok []
    else
      match toFloatE amts with
      | .error e => .error e
      | .ok a =>
        .ok [⟨String.mk (stripL g1), digitsToInt qs,
          if 0 < digitsToInt qs then a / (digitsToInt qs : ℚ) else a, a⟩]
  | _ =>
    match reMatch [isDigitDot] s with
    | some (g1, [amts]) =>
      if g1.length > 3 then
        match toFloatE amts with
        | .error e => .error e
        | .ok a =>
          if skipTermsSummary (stripL g1) then .ok [] else .ok [⟨String.mk (stripL g1), 1, a, a⟩]
      else .ok []
    | _ => .ok []

/-- The receipt line loop of `parse_receipt_items`. -/
def parseReceiptGo : List (List Char) → Except PyError (List LineItem)
  | [] => .ok []
  | l :: ls =>
    let s := stripL l
    if s.isEmpty then parseReceiptGo ls
    else
      match receiptItemOfLine s with
      | .error e => .error e
      | .ok its =>
        match parseReceiptGo ls with
        | .error e => .error e
        | .ok rest => .ok (its ++ rest)

/-- `InvoiceProcessor.parse_receipt_items`. -/
def parse_receipt_items (text : String) : Except PyError (List LineItem) :=
  parseReceiptGo (splitLines text.data)

/-- `re.search`: try the position-anchored matcher at each start
position, leftmost first. -/
def searchFirst {α : Type} (f : List Char → Option α) : List Char → Option α
  | [] => f []
  | c :: rest =>
    match f (c :: rest) with
    | some r => some r
    | none => searchFirst f rest

/-- `\d{2}sep\d{2}sep\d{4}` at the current position. -/
def matchMDYHere (sep : Char) (s : List Char) : Option (List Char) :=
  match s with
  | a :: b :: c1 :: c :: d :: c2 :: e :: f :: g :: h :: _ =>
    if c1 = sep ∧ c2 = sep ∧ [a, b, c, d, e, f, g, h].all isDigitCh then
      some [a, b, sep, c, d, sep, e, f, g, h]
    else none
  | _ => none

/-- `\s+` followed by `\d{2}/\d{2}/\d{4}` at the current position. -/
def spacedMDYHere (s : List Char) : Option (List Char) :=
  if (s.takeWhile isSpaceCh).isEmpty then none
  else matchMDYHere '/' (s.dropWhile isSpaceCh)

/-- `DATE\s+(\d{2}/\d{2}/\d{4})` at the current position. -/
def invoiceDateAt (s : List Char) : Option (List Char) :=
  if "DATE".data.isPrefixOf s then spacedMDYHere (s.drop 4) else none

/-- `InvoiceProcessor.parse_invoice_date`. -/
def parse_invoice_date (text : String) : String :=
  match searchFirst invoiceDateAt text.data with
  | some d => String.mk d
  | none => ""

/-- `INVOICE\s+(\d+)` at the current position (the trailing `\d+` is greedy). -/
def invoiceNumberAt (s : List Char) : Option (List Char) :=
  if "INVOICE".data.isPrefixOf s then
    let rest := s.drop 7
    if (rest.takeWhile isSpaceCh).isEmpty then none
    else
      let ds := (rest.dropWhile isSpaceCh).takeWhile isDigitCh
      if ds.isEmpty then none else some ds
  else none

/-- `InvoiceProcessor.parse_invoice_number`. -/
def parse_invoice_number (text : String) : String :=
  match searchFirst invoiceNumberAt text.data with
  | some d => String.mk d
  | none => ""

/-- `lit\s*(\d{2}/\d{2}/\d{4})` at the current position. -/
def litStarMDYAt (lit : String) (s : List Char) : Option (List Char) :=
  if lit.data.isPrefixOf s then
    matchMDYHere '/' ((s.drop lit.length).dropWhile isSpaceCh)
  else none

/-- `\d{1,2}/` (greedy, two digits preferred) at the current position;
returns the digits and the remainder after the slash. -/
def digits12Slash : List Char → Option (List Char × List Char)
  | a :: b :: c :: rest =>
    if isDigitCh a ∧ isDigitCh b ∧ c = '/' then some ([a, b], rest)
    else if isDigitCh a ∧ b = '/' then some ([a], c :: rest)
    else none
  | [a, b] => if isDigitCh a ∧ b = '/' then some ([a], []) else none
  | _ => none

/-- `(\d{1,2}/\d{1,2}/\d{4})` at the current position. -/
def mdy12At (s : List Char) : Option (List Char) := do
  let (m, s1) ← digits12Slash s
  let (d, s2) ← digits12Slash s1
  match s2 with
  | e :: f :: g :: h :: _ =>
    if [e, f, g, h].all isDigitCh then some (m ++ '/' :: d ++ '/' :: [e, f, g, h]) else none
  | _ => none

/-- `InvoiceProcessor.parse_receipt_date`: five patterns tried in order,
each searched over the whole text. -/
def parse_receipt_date (text : String) : String :=
  match searchFirst invoiceDateAt text.data with
  | some d => String.mk d
  | none =>
    match searchFirst (litStarMDYAt "Date:") text.data with
    | some d => String.mk d
    | none =>
      match searchFirst (matchMDYHere '/') text.data with
      | some d => String.mk d
      | none =>
        match searchFirst mdy12At text.data with
        | some d => String.mk d
        | none =>
          match searchFirst (matchMDYHere '-') text.data with
          | some d => String.mk d
          | none => ""

/-- `lit\s*#?\s*(\d+)` at the current position. -/
def litHashNumAt (lit : String) (s : List Char) : Option (List Char) :=
  if lit.data.isPrefixOf s then
    let s1 := (s.drop lit.length).dropWhile isSpaceCh
    let s2 := match s1 with
      | '#' :: r => r.dropWhile isSpaceCh
      | _ => s1
    let ds := s2.takeWhile isDigitCh
    if ds.isEmpty then none else some ds
  else none

/-- `RECEIPT\s+(\d+)` at the current position. -/
def receiptNumAt (s : List Char) : Option (List Char) :=
  if "RECEIPT".data.isPrefixOf s then
    let rest := s.drop 7
    if (rest.takeWhile isSpaceCh).isEmpty then none
    else
      let ds := (rest.dropWhile isSpaceCh).takeWhile isDigitCh
      if ds.isEmpty then none else some ds
  else none

/-- `InvoiceProcessor.parse_receipt_number`: four patterns in order. -/
def parse_receipt_number (text : String) : String :=
  match searchFirst receiptNumAt text.data with
  | some d => String.mk d
  | none =>
    match searchFirst (litHashNumAt "Receipt") text.data with
    | some d => String.mk d
    | none =>
      match searchFirst (litHashNumAt "REF") text.data with
      | some d => String.mk d
      | none =>
        match searchFirst (litHashNumAt "Reference") text.data with
        | some d => String.mk d
        | none => ""

/-- A processed document record (invoice or receipt dict). -/
structure Document where
  file_name : String
  document_number : String
  date : String
  items : List LineItem
  docType : String
deriving DecidableEq

/-- `process_single_invoice`: text extraction (given as an
already-resolved `Except`, since PDF reading is external) then field
parsing; any raised error propagates. -/
def process_single_invoice (fname : String) (content : Except PyError String) :
    Except PyError Document :=
  match content with
  | .error e => .error e
  | .ok text =>
    match parse_line_items text with
    | .error e => .error e
    | .ok items =>
      .ok ⟨fname, parse_invoice_number text, parse_invoice_date text, items, "invoice"⟩

/-- `process_single_receipt`. -/
def process_single_receipt (fname : String) (content : Except PyError String) :
    Except PyError Document :=
  match content with
  | .error e => .error e
  | .ok text =>
    match parse_receipt_items text with
    | .error e => .error e
    | .ok items =>
      .ok ⟨fname, parse_receipt_number text, parse_receipt_date text, items, "receipt"⟩

/-- The `for pdf_file in pdf_files: try … except` loop: failures are
logged and skipped, successes are appended in order. -/
def processGo (single : String → Except PyError String → Except PyError Document) :
    List (String × Except PyError String) → List Document
  | [] => []
  | (f, c) :: rest =>
    match single f c with
    | .ok d => d :: processGo single rest
    | .error _ => processGo single rest

/-- `pdf_files.sort()`: lexicographic order on file names. -/
def sortFiles (files : List (String × Except PyError String)) :
    List (String × Except PyError String) :=
  List.insertionSort (fun a b => listLexLe a.1.data b.1.data = true) files

/-- `process_all_invoices`, over the directory contents given as
(file name, extraction outcome) pairs. -/
def process_all_invoices (files : List (String × Except PyError String)) : List Document :=
  processGo process_single_invoice (sortFiles files)

/-- `process_all_receipts`. -/
def process_all_receipts (files : List (String × Except PyError String)) : List Document :=
  processGo process_single_receipt (sortFiles files)

/-- A calendar date as parsed by `pd.to_datetime(..., format='%m/%d/%Y')`. -/
structure PDate where
  year : ℕ
  month : ℕ
  day : ℕ
deriving DecidableEq

/-- Chronological comparison of valid dates. -/
def pdateLe (a b : PDate) : Bool :=
  if a.year ≠ b.year then decide (a.year < b.year)
  else if a.month ≠ b.month then decide (a.month < b.month)
  else decide (a.day ≤ b.day)

def isLeapYear (y : ℕ) : Bool :=
  (y % 4 = 0 && y % 100 ≠ 0) || y % 400 = 0

def daysInMonth (y m : ℕ) : ℕ :=
  if m = 2 then (if isLeapYear y then 29 else 28)
  else if m = 4 ∨ m = 6 ∨ m = 9 ∨ m = 11 then 30
  else 31

/-- Nanosecond `pd.Timestamp` only covers 1677-09-22 … 2262-04-11;
out-of-bounds dates are also coerced to `NaT`. -/
def inPandasRange (y m d : ℕ) : Bool :=
  pdateLe ⟨1677, 9, 22⟩ ⟨y, m, d⟩ && pdateLe ⟨y, m, d⟩ ⟨2262, 4, 11⟩

/-- `strptime`-style parse of `%m/%d/%Y`: 1–2 digit month 1–12, 1–2
digit day valid for the month, exactly 4 digit year, nothing else.
Anything that does not fully match (including the empty string), or a
date outside the `Timestamp` range, yields `none`
(pandas `errors='coerce'` → `NaT`). -/
def parseMDY (str : String) : Option PDate :=
  match str.data.splitOn '/' with
  | [ms, ds, ys] =>
    if ms ≠ [] ∧ ms.length ≤ 2 ∧ ms.all isDigitCh ∧
        ds ≠ [] ∧ ds.length ≤ 2 ∧ ds.all isDigitCh ∧
        ys.length = 4 ∧ ys.all isDigitCh then
      let m := digitsVal ms
      let d := digitsVal ds
      let y := digitsVal ys
      if 1 ≤ m ∧ m ≤ 12 ∧ 1 ≤ d ∧ d ≤ daysInMonth y m ∧ inPandasRange y m d then
        some ⟨y, m, d⟩
      else none
    else none
  | _ => none

/-- `strftime('%m/%d/%Y')` (zero-padded). -/
def pad2 (n : ℕ) : String :=
  if n < 10 then String.mk ['0', Char.ofNat (48 + n)] else toString n

def fmtMDY (d : PDate) : String :=
  pad2 d.month ++ "/" ++ pad2 d.day ++ "/" ++ toString d.year

/-- One row of the price-tracking table before date conversion. -/
structure RawPriceRow where
  date : String
  item_name : String
  price_per_item : ℚ
  document_number : String
  document_type : String
deriving DecidableEq

/-- One row after date parsing (a `PriceRecord`). -/
structure PriceRecord where
  item_name : String
  date : PDate
  price_per_item : ℚ
  document_number : String
  document_type : String
deriving DecidableEq

/-- The rows a single document contributes to `price_data`. -/
def docPriceRows (docType : String) (d : Document) : List RawPriceRow :=
  d.items.map (fun it => ⟨d.date, it.description, it.rate, d.document_number, docType⟩)

/-- `price_data`: invoice rows then receipt rows, in document order. -/
def rawPriceRows (invoices receipts : List Document) : List RawPriceRow :=
  (invoices.flatMap (docPriceRows "invoice")) ++ (receipts.flatMap (docPriceRows "receipt"))

/-- `pd.to_datetime(..., errors='coerce')` + `dropna` on one row. -/
def toPriceRecord (r : RawPriceRow) : Option PriceRecord :=
  (parseMDY r.date).map (fun d => ⟨r.item_name, d, r.price_per_item, r.document_number, r.document_type⟩)

/-- `sort_values(['item_name', 'date'])` comparison. -/
def recLe (a b : PriceRecord) : Bool :=
  if a.item_name = b.item_name then pdateLe a.date b.date
  else listLexLe a.item_name.data b.item_name.data

/-- `InvoiceProcessor.create_price_tracking`: flatten, parse dates,
drop unparseable rows, sort by (item_name, date). -/
def create_price_tracking (invoices receipts : List Document) : List PriceRecord :=
  List.insertionSort (fun a b => recLe a b = true)
    ((rawPriceRows invoices receipts).filterMap toPriceRecord)

/-- Round half to even at integer precision. -/
def rndHalfEven (q : ℚ) : ℤ :=
  let f := ⌊q⌋
  let r := q - (f : ℚ)
  if r < 1 / 2 then f
  else if 1 / 2 < r then f + 1
  else if f % 2 = 0 then f else f + 1

/-- Python `round(x, 2)`. -/
def roundTo2 (q : ℚ) : ℚ :=
  (rndHalfEven (q * 100) : ℚ) / 100

/-- A numpy `float64` value as it can appear in `percentage_change`:
finite, or an infinity produced by dividing a nonzero number by zero
(numpy emits a RuntimeWarning and returns ±inf — it does not raise). -/
inductive FloatVal where
  | finite (q : ℚ)
  | posInf
  | negInf
deriving DecidableEq

/-- A row of `price_changes.csv`. -/
structure PriceChangeEvent where
  item_name : String
  previous_date : String
  current_date : String
  previous_price : ℚ
  current_price : ℚ
  price_change : ℚ
  percentage_change : FloatVal
deriving DecidableEq

/-- `round(((curr - prev) / prev) * 100, 2)` on numpy float64 scalars,
for `prev ≠ curr`: with `prev = 0` the division silently returns ±inf
(by the sign of `curr - prev`), which `* 100` and `round(·, 2)`
preserve; otherwise the finite rounded percentage. -/
def pctChange (prev curr : ℚ) : FloatVal :=
  if prev = 0 then (if 0 < curr - prev then .posInf else .negInf)
  else .finite (roundTo2 ((curr - prev) / prev * 100))

/-- The event appended for a differing adjacent pair. -/
def mkCodeEvent (name : String) (a b : PriceRecord) : PriceChangeEvent :=
  ⟨name, fmtMDY a.date, fmtMDY b.date, a.price_per_item, b.price_per_item,
    b.price_per_item - a.price_per_item, pctChange a.price_per_item b.price_per_item⟩

/-- The loop body for one adjacent pair: emit an event exactly when the
prices differ (a zero previous price still emits, with an infinite
percentage — nothing is raised). -/
def pairEvent (name : String) (a b : PriceRecord) : Option PriceChangeEvent :=
  if a.price_per_item ≠ b.price_per_item then some (mkCodeEvent name a b) else none

/-- `for i in range(1, len(item_prices))`: walk adjacent pairs. -/
def walkPairs (name : String) : List PriceRecord → List PriceChangeEvent
  | [] => []
  | [_] => []
  | a :: b :: rest => (pairEvent name a b).toList ++ walkPairs name (b :: rest)

/-- `price_df[price_df['item_name'] == name].sort_values('date')`. -/
def itemSeries (records : List PriceRecord) (name : String) : List PriceRecord :=
  List.insertionSort (fun a b => pdateLe a.date b.date = true)
    (records.filter (fun r => r.item_name = name))

/-- `pd.unique`: first occurrences, in order. -/
def uniqueFirstAux (seen : List String) : List String → List String
  | [] => []
  | a :: rest =>
    if seen.contains a then uniqueFirstAux seen rest
    else a :: uniqueFirstAux (a :: seen) rest

def uniqueFirst (l : List String) : List String :=
  uniqueFirstAux [] l

/-- The per-item loop of `analyze_price_changes`, accumulating events. -/
def analyzeGo (records : List PriceRecord) : List String → List PriceChangeEvent
  | [] => []
  | n :: ns => walkPairs n (itemSeries records n) ++ analyzeGo records ns

/-- `InvoiceProcessor.analyze_price_changes`. -/
def analyze_price_changes (records : List PriceRecord) : List PriceChangeEvent :=
  analyzeGo records (uniqueFirst (records.map (fun r => r.item_name)))

deriving instance DecidableEq for Except

/-- State update of the `in_items_section` flag for one raw line. -/
def sectStep (b : Bool) (l : List Char) : Bool :=
  if isHeaderLine (stripL l) then true
  else if isStopLine (stripL l) then false
  else b

/-- Declarative per-line item extraction for an in-section line:
control and blank lines yield nothing; otherwise the item the loop
body would produce, or nothing if a conversion would raise. -/
def invoiceLineSpec (l : List Char) : Option LineItem :=
  let s := stripL l
  if isHeaderLine s || isStopLine s || s.isEmpty then none
  else
    match invoiceItemOfLine s with
    | .ok o => o
    | .error _ => none

/-- Whether an in-section line would raise a conversion error. -/
def invoiceLineFails (l : List Char) : Bool :=
  let s := stripL l
  if isHeaderLine s || isStopLine s || s.isEmpty then false
  else
    match invoiceItemOfLine s with
    | .ok _ => false
    | .error _ => true

/-- Declarative characterisation of the collected invoice items:
pair every line with the flag state before it (`scanl`), keep the
in-section lines, and extract per line. -/
def declItemsFrom (b : Bool) (lines : List (List Char)) : List LineItem :=
  (lines.zip (lines.scanl sectStep b)).filterMap
    (fun p => if p.2 then invoiceLineSpec p.1 else none)

/-- Declarative characterisation of a raising parse: some in-section
line fails a conversion. -/
def declBadFrom (b : Bool) (lines : List (List Char)) : Bool :=
  (lines.zip (lines.scanl sectStep b)).any (fun p => p.2 && invoiceLineFails p.1)

/-- Modelled from the spec sentence of C3: items are collected only
from the section starting after the FIRST header line and ending at
the first subsequent stop line. -/
def firstSectionLines (lines : List (List Char)) : List (List Char) :=
  ((lines.dropWhile (fun l => !(isHeaderLine (stripL l)))).drop 1).takeWhile
    (fun l => !(isStopLine (stripL l)))

/-- Modelled from the spec sentence of C3: the items the claim predicts. -/
def claimFirstSectionItems (lines : List (List Char)) : List LineItem :=
  (firstSectionLines lines).filterMap invoiceLineSpec

/-- The event the claim describes for a differing adjacent pair,
written out with the claim's formula (finite percentage). -/
def mkChangeEvent (name : String) (a b : PriceRecord) : PriceChangeEvent :=
  ⟨name, fmtMDY a.date, fmtMDY b.date, a.price_per_item, b.price_per_item,
    b.price_per_item - a.price_per_item,
    .finite (roundTo2 ((b.price_per_item - a.price_per_item) / a.price_per_item * 100))⟩

/-- Declarative per-item event list: walk the adjacent pairs of the
sorted series and keep exactly the differing ones, with the claim's
finite percentage formula. -/
def specEvents (name : String) (s : List PriceRecord) : List PriceChangeEvent :=
  (s.zip s.tail).filterMap
    (fun p => if p.1.price_per_item ≠ p.2.price_per_item then
        some (mkChangeEvent name p.1 p.2)
      else none)

/-- Declarative per-item event list with the code's `pctChange`
percentage (agrees with `specEvents` whenever no differing pair has a
zero previous price). -/
def codeEvents (name : String) (s : List PriceRecord) : List PriceChangeEvent :=
  (s.zip s.tail).filterMap
    (fun p => if p.1.price_per_item ≠ p.2.price_per_item then
        some (mkCodeEvent name p.1 p.2)
      else none)

/-- The RICE price history fixture of the claim. -/
def riceRecords : List PriceRecord :=
  [⟨"RICE", ⟨2024, 1, 1⟩, 10, "1", "invoice"⟩,
   ⟨"RICE", ⟨2024, 2, 1⟩, 10, "2", "invoice"⟩,
   ⟨"RICE", ⟨2024, 3, 1⟩, 12, "3", "invoice"⟩]

/-- The single event the RICE fixture must produce. -/
def riceEvent : PriceChangeEvent :=
  ⟨"RICE", "02/01/2024", "03/01/2024", 10, 12, 2, .finite 20⟩

/-- A history whose equal-price middle pair breaks the chain property. -/
def chainBreakRecords : List PriceRecord :=
  [⟨"RICE", ⟨2024, 1, 1⟩, 10, "1", "invoice"⟩,
   ⟨"RICE", ⟨2024, 2, 1⟩, 12, "2", "invoice"⟩,
   ⟨"RICE", ⟨2024, 3, 1⟩, 12, "3", "invoice"⟩,
   ⟨"RICE", ⟨2024, 4, 1⟩, 15, "4", "invoice"⟩]

/-- A history with a zero previous price followed by a further change:
pair (0, 5) divides by zero, then pair (5, 10) is an ordinary change. -/
def zeroPrevRecords : List PriceRecord :=
  [⟨"AAA", ⟨2024, 1, 1⟩, 0, "1", "invoice"⟩,
   ⟨"AAA", ⟨2024, 2, 1⟩, 5, "2", "invoice"⟩,
   ⟨"AAA", ⟨2024, 3, 1⟩, 10, "3", "invoice"⟩]

/-- An all-distinct-prices history, for the amended chain property. -/
def distinctRecords : List PriceRecord :=
  [⟨"DAL", ⟨2024, 1, 1⟩, 4, "1", "invoice"⟩,
   ⟨"DAL", ⟨2024, 2, 1⟩, 5, "2", "invoice"⟩,
   ⟨"DAL", ⟨2024, 3, 1⟩, 6, "3", "invoice"⟩]

/-- Invoice text with the claim's example line. -/
def invoiceExampleText : String :=
  "DESCRIPTION QTY RATE AMOUNT\nBASMATI RICE 5LB  10  12.50  125.00\nTOTAL DUE 125.00"

/-- Invoice text with two header lines: the second items section
re-opens after the first stop line. -/
def twoSectionText : String :=
  "DESCRIPTION QTY RATE\nAAA ITEM 1 2.00 2.00\nTOTAL DUE 2.00\nDESCRIPTION QTY RATE\nBBB ITEM 1 3.00 3.00"

/-- Invoice text yielding an item with quantity 0. -/
def qtyZeroText : String :=
  "DESCRIPTION QTY RATE\nWIDGET 0 5.00 0.00"

/-- Invoice text with one good line and one line whose rate field
matches `[\d.]+` but is not a valid float literal. -/
def badFloatInvoiceText : String :=
  "DESCRIPTION QTY RATE\nGOOD ITEM 2 3.50 7.00\nBAD ITEM 2 1.2.3 7.00"

/-- The same invoice text without the bad line. -/
def goodInvoiceText : String :=
  "DESCRIPTION QTY RATE\nGOOD ITEM 2 3.50 7.00"

theorem codeEvents_cons (name : String) (a b : PriceRecord) (rest : List PriceRecord) :
    codeEvents name (a :: b :: rest) =
      (if a.price_per_item ≠ b.price_per_item then [mkCodeEvent name a b] else []) ++
        codeEvents name (b :: rest) := by
  by_cases hd : a.price_per_item = b.price_per_item <;>
    simp [codeEvents, hd]

theorem walkPairs_eq_codeEvents (name : String) :
    ∀ (s : List PriceRecord), walkPairs name s = codeEvents name s
  | [] => rfl
  | [_] => rfl
  | a :: b :: rest => by
    rw [codeEvents_cons]
    by_cases hd : a.price_per_item = b.price_per_item <;>
      simp [walkPairs, pairEvent, hd, walkPairs_eq_codeEvents name (b :: rest)]

theorem codeEvents_eq_specEvents (name : String) (s : List PriceRecord)
    (h : ∀ p ∈ s.zip s.tail,
      p.1.price_per_item ≠ p.2.price_per_item → p.1.price_per_item ≠ 0) :
    codeEvents name s = specEvents name s := by
  refine List.filterMap_congr (fun p hp => ?_)
  by_cases hd : p.1.price_per_item = p.2.price_per_item
  · simp [hd]
  · simp only [hd, if_pos, ne_eq, not_false_iff, if_true]
    rw [mkCodeEvent, mkChangeEvent, pctChange, if_neg (h p hp hd)]

/-- C1: for every item, walking the adjacent pairs (i−1, i) of its
date-ascending price series, the analyzer emits a `PriceChangeEvent`
exactly when the two unit prices differ, with `price_change` equal to
current − previous and `percentage_change` equal to
round((current − previous)/previous · 100, 2) — provided no differing
pair has a zero previous price (there the claim's formula is undefined
and the code silently emits an infinite percentage instead, cf. C2);
and the item "RICE" with records (01/01/2024, 10), (02/01/2024, 10),
(03/01/2024, 12) produces exactly one event: previous 10 at 02/01/2024,
current 12 at 03/01/2024, percentage_change 20. -/
theorem C1_adjacent_pair_events :
    (∀ (records : List PriceRecord) (name : String),
      (∀ p ∈ (itemSeries records name).zip (itemSeries records name).tail,
          p.1.price_per_item ≠ p.2.price_per_item → p.1.price_per_item ≠ 0) →
      walkPairs name (itemSeries records name) =
        specEvents name (itemSeries records name))
    ∧ analyze_price_changes riceRecords = [riceEvent] :=
  ⟨fun records name h =>
    (walkPairs_eq_codeEvents name _).trans (codeEvents_eq_specEvents name _ h),
   by with_unfolding_all rfl⟩

/-- Witness for C1: the hypothesis holds and the conclusion evaluates
on the RICE fixture. -/
theorem C1_adjacent_pair_events_witness :
    (∀ p ∈ (itemSeries riceRecords "RICE").zip (itemSeries riceRecords "RICE").tail,
        p.1.price_per_item ≠ p.2.price_per_item → p.1.price_per_item ≠ 0)
    ∧ walkPairs "RICE" (itemSeries riceRecords "RICE") =
        specEvents "RICE" (itemSeries riceRecords "RICE") :=
  ⟨by with_unfolding_all decide,
   C1_adjacent_pair_events.1 riceRecords "RICE" (by with_unfolding_all decide)⟩

theorem filterMap_if_all {α β : Type} (f : α → β) (P : α → Prop) [DecidablePred P] :
    ∀ (L : List α), (∀ x ∈ L, P x) →
      L.filterMap (fun x => if P x then some (f x) else none) = L.map f
  | [], _ => rfl
  | x :: xs, h => by
    simp only [List.filterMap_cons, List.map_cons, if_pos (h x (by simp))]
    rw [filterMap_if_all f P xs (fun y hy => h y (by simp [hy]))]

theorem codeEvents_of_all_ne (name : String) (s : List PriceRecord)
    (h : ∀ p ∈ s.zip s.tail, p.1.price_per_item ≠ p.2.price_per_item) :
    codeEvents name s =
      (s.zip s.tail).map (fun p => mkCodeEvent name p.1 p.2) :=
  filterMap_if_all _ _ _ h

theorem chain_mkCodeEvent (name : String) :
    ∀ (s : List PriceRecord),
      List.Chain' (fun e1 e2 => e2.previous_date = e1.current_date)
        ((s.zip s.tail).map (fun p => mkCodeEvent name p.1 p.2))
  | [] => by simp
  | [_] => by simp
  | [_, _] => by simp
  | a :: b :: c :: rest => by
    have ih := chain_mkCodeEvent name (b :: c :: rest)
    simp only [List.tail_cons, List.zip_cons_cons, List.map_cons] at ih ⊢
    exact ih.cons rfl

/-- C6 amended: the chain property (each event's previous_date equals
the preceding event's current_date) holds for an item provided every
adjacent pair of its sorted series has differing prices (so every pair
emits an event — a zero previous price still emits one, with an
infinite percentage); when an equal-price pair is skipped between two
emitted events the property fails, see the counterexample. -/
theorem C6_chain_property_amended :
    ∀ (records : List PriceRecord) (name : String),
      (∀ p ∈ (itemSeries records name).zip (itemSeries records name).tail,
          p.1.price_per_item ≠ p.2.price_per_item) →
      List.Chain' (fun e1 e2 => e2.previous_date = e1.current_date)
        (walkPairs name (itemSeries records name)) := by
  intro records name h
  rw [walkPairs_eq_codeEvents, codeEvents_of_all_ne name _ h]
  exact chain_mkCodeEvent name _

/-- Witness for the amended C6 on an all-distinct-prices history. -/
theorem C6_chain_property_amended_witness :
    (∀ p ∈ (itemSeries distinctRecords "DAL").zip (itemSeries distinctRecords "DAL").tail,
        p.1.price_per_item ≠ p.2.price_per_item)
    ∧ List.Chain' (fun e1 e2 => e2.previous_date = e1.current_date)
        (walkPairs "DAL" (itemSeries distinctRecords "DAL")) :=
  ⟨by with_unfolding_all decide,
   C6_chain_property_amended distinctRecords "DAL" (by with_unfolding_all decide)⟩

/-- C6 counterexample: the history 10, 12, 12, 15 (four price points,
more than two) produces two events, and the second event's
previous_date (03/01/2024) is not the first event's current_date
(02/01/2024), because the equal-price middle pair emits nothing. -/
theorem C6_chain_property_cx :
    analyze_price_changes chainBreakRecords =
      [⟨"RICE", "01/01/2024", "02/01/2024", 10, 12, 2, .finite 20⟩,
        ⟨"RICE", "03/01/2024", "04/01/2024", 12, 15, 3, .finite 25⟩]
    ∧ (⟨"RICE", "03/01/2024", "04/01/2024", 12, 15, 3, .finite 25⟩ :
          PriceChangeEvent).previous_date ≠
      (⟨"RICE", "01/01/2024", "02/01/2024", 10, 12, 2, .finite 20⟩ :
          PriceChangeEvent).current_date :=
  ⟨by with_unfolding_all rfl, by decide⟩

/-- C2: on a differing adjacent pair with zero previous price the
analyzer does not fail and does not skip or flag the event — the numpy
float64 division silently returns infinity (only a RuntimeWarning), so
an event with percentage_change = +inf is appended to the output and
the analysis simply continues with the next pair, which is exactly the
"silently writes a corrupted (infinite) percentage_change value"
outcome the claim forbids. -/
theorem C2_zero_prev_price_division :
    analyze_price_changes zeroPrevRecords =
      [⟨"AAA", "01/01/2024", "02/01/2024", 0, 5, 5, FloatVal.posInf⟩,
        ⟨"AAA", "02/01/2024", "03/01/2024", 5, 10, 5, .finite 100⟩] := by
  with_unfolding_all rfl

theorem declItemsFrom_cons (b : Bool) (l : List Char) (ls : List (List Char)) :
    declItemsFrom b (l :: ls) =
      (if b then (invoiceLineSpec l).toList else []) ++ declItemsFrom (sectStep b l) ls := by
  by_cases hb : b <;> cases hS : invoiceLineSpec l <;>
    simp [declItemsFrom, List.scanl_cons, List.filterMap_cons, hb, hS]

theorem declBadFrom_cons (b : Bool) (l : List Char) (ls : List (List Char)) :
    declBadFrom b (l :: ls) = ((b && invoiceLineFails l) || declBadFrom (sectStep b l) ls) := by
  simp [declBadFrom, List.scanl_cons, List.any_cons]

theorem parseLinesGo_ok_eq :
    ∀ (lines : List (List Char)) (b : Bool) (its : List LineItem),
      parseLinesGo b lines = Except.ok its → its = declItemsFrom b lines
  | [], b, its, h => by
    simp only [parseLinesGo, Except.ok.injEq] at h
    simp [← h, declItemsFrom]
  | l :: ls, b, its, h => by
    rw [declItemsFrom_cons]
    by_cases hH : isHeaderLine (stripL l) = true
    · simp only [parseLinesGo, hH, if_true] at h
      have hspec : invoiceLineSpec l = none := by simp [invoiceLineSpec, hH]
      have hstep : sectStep b l = true := by simp [sectStep, hH]
      rw [hspec, hstep, parseLinesGo_ok_eq ls true its h]
      cases b <;> simp
    · by_cases hS : isStopLine (stripL l) = true
      · simp only [parseLinesGo, hH, hS, if_true, if_false] at h
        have hspec : invoiceLineSpec l = none := by simp [invoiceLineSpec, hH, hS]
        have hstep : sectStep b l = false := by simp [sectStep, hH, hS]
        rw [hspec, hstep, parseLinesGo_ok_eq ls false its h]
        cases b <;> simp
      · have hstep : sectStep b l = b := by simp [sectStep, hH, hS]
        by_cases hskip : (!b || (stripL l).isEmpty) = true
        · simp only [parseLinesGo, hH, hS, hskip, if_true, if_false] at h
          rw [hstep, parseLinesGo_ok_eq ls b its h]
          rcases Bool.or_eq_true_iff.mp hskip with hb | hempty
          · have : b = false := by revert hb; cases b <;> simp
            simp [this]
          · have hspec : invoiceLineSpec l = none := by simp [invoiceLineSpec, hH, hS, hempty]
            cases b <;> simp [hspec]
        · have hb : b = true := by revert hskip; cases b <;> simp
          have hne : (stripL l).isEmpty = false := by revert hskip; cases h2 : (stripL l).isEmpty <;> simp [hb]
          subst hb
          simp only [parseLinesGo, hH, hS, hskip, if_true, if_false] at h
          cases hio : invoiceItemOfLine (stripL l) with
          | error e => rw [hio] at h; cases h
          | ok o =>
            rw [hio] at h
            cases hrec : parseLinesGo true ls with
            | error e => rw [hrec] at h; cases h
            | ok rest =>
              rw [hrec] at h
              simp only [if_neg (by simp : ¬ (false = true)), Except.ok.injEq] at h
              have hspec : invoiceLineSpec l = o := by
                simp [invoiceLineSpec, hH, hS, hne, hio]
              rw [hstep, hspec, ← parseLinesGo_ok_eq ls true rest hrec, ← h]
              simp

theorem parseLinesGo_err_iff :
    ∀ (lines : List (List Char)) (b : Bool),
      (∃ e, parseLinesGo b lines = Except.error e) ↔ declBadFrom b lines = true
  | [], b => by simp [parseLinesGo, declBadFrom]
  | l :: ls, b => by
    rw [declBadFrom_cons]
    by_cases hH : isHeaderLine (stripL l) = true
    · have hfail : invoiceLineFails l = false := by simp [invoiceLineFails, hH]
      simp only [parseLinesGo, hH, if_true, hfail, Bool.and_false, Bool.false_or]
      have hstep : sectStep b l = true := by simp [sectStep, hH]
      rw [hstep]
      exact parseLinesGo_err_iff ls true
    · by_cases hS : isStopLine (stripL l) = true
      · have hfail : invoiceLineFails l = false := by simp [invoiceLineFails, hH, hS]
        simp only [parseLinesGo, hH, hS, if_true, if_false, hfail, Bool.and_false, Bool.false_or]
        have hstep : sectStep b l = false := by simp [sectStep, hH, hS]
        rw [hstep]
        exact parseLinesGo_err_iff ls false
      · have hstep : sectStep b l = b := by simp [sectStep, hH, hS]
        rw [hstep]
        by_cases hskip : (!b || (stripL l).isEmpty) = true
        · simp only [parseLinesGo, hH, hS, hskip, if_true, if_false]
          rcases Bool.or_eq_true_iff.mp hskip with hb | hempty
          · have : b = false := by revert hb; cases b <;> simp
            simp only [this, Bool.false_and, Bool.false_or]
            exact parseLinesGo_err_iff ls false
          · have hfail : invoiceLineFails l = false := by simp [invoiceLineFails, hH, hS, hempty]
            simp only [hfail, Bool.and_false, Bool.false_or]
            exact parseLinesGo_err_iff ls b
        · have hb : b = true := by revert hskip; cases b <;> simp
          have hne : (stripL l).isEmpty = false := by revert hskip; cases h2 : (stripL l).isEmpty <;> simp [hb]
          subst hb
          simp only [parseLinesGo, hH, hS, hskip, if_true, if_false, Bool.true_and]
          cases hio : invoiceItemOfLine (stripL l) with
          | error e =>
            have hfail : invoiceLineFails l = true := by simp [invoiceLineFails, hH, hS, hne, hio]
            simp [hfail]
          | ok o =>
            have hfail : invoiceLineFails l = false := by simp [invoiceLineFails, hH, hS, hne, hio]
            simp only [hfail, Bool.false_or]
            cases hrec : parseLinesGo true ls with
            | error e =>
              have : declBadFrom true ls = true := (parseLinesGo_err_iff ls true).mp ⟨e, hrec⟩
              simp [this]
            | ok rest =>
              have : ¬ declBadFrom true ls = true := by
                rw [← parseLinesGo_err_iff ls true]
                rintro ⟨e, he⟩
                rw [hrec] at he
                cases he
              simp [this]

/-- C3 amended: the invoice parser collects items not only from the
section after the first header line — every line containing
DESCRIPTION, QTY and RATE (re)opens the items section and every line
containing VERIFIED, TOTAL DUE or PAYMENT closes it; a line is
in-section iff the flag produced by scanning the preceding lines is
set.  For a successful parse, the items are exactly the per-line
extractions of the in-section, non-blank, non-control lines matching
the whole-line pattern whose description passes the skip-term filter
(`declItemsFrom`); the parse instead raises exactly when some
in-section matched line has an invalid numeric field; and the example
line "BASMATI RICE 5LB  10  12.50  125.00" inside a section yields
LineItem("BASMATI RICE 5LB", 10, 12.50, 125.00). -/
theorem C3_invoice_items_amended :
    (∀ (text : String) (its : List LineItem),
        parse_line_items text = Except.ok its →
        its = declItemsFrom false (splitLines text.data))
    ∧ (∀ text : String,
        (∃ e, parse_line_items text = Except.error e) ↔
          declBadFrom false (splitLines text.data) = true)
    ∧ parse_line_items invoiceExampleText =
        Except.ok [⟨"BASMATI RICE 5LB", 10, 25/2, 125⟩] :=
  ⟨fun _ its h => parseLinesGo_ok_eq _ _ its h,
   fun _ => parseLinesGo_err_iff _ _,
   by with_unfolding_all rfl⟩

/-- Witness for the amended C3 at the example invoice text. -/
theorem C3_invoice_items_amended_witness :
    parse_line_items invoiceExampleText =
      Except.ok [⟨"BASMATI RICE 5LB", 10, 25/2, 125⟩]
    ∧ [(⟨"BASMATI RICE 5LB", 10, 25/2, 125⟩ : LineItem)] =
        declItemsFrom false (splitLines invoiceExampleText.data) :=
  ⟨by with_unfolding_all rfl,
   C3_invoice_items_amended.1 invoiceExampleText _ (by with_unfolding_all rfl)⟩

/-- C3 counterexample: on a text with a second header line after the
first stop line, the code also collects the second section's item
(BBB ITEM), while the claim's "only from the section starting after
the first header line and ending at the first subsequent stop line"
predicts only AAA ITEM. -/
theorem C3_invoice_items_cx :
    parse_line_items twoSectionText =
      Except.ok [⟨"AAA ITEM", 1, 2, 2⟩, ⟨"BBB ITEM", 1, 3, 3⟩]
    ∧ claimFirstSectionItems (splitLines twoSectionText.data) = [⟨"AAA ITEM", 1, 2, 2⟩] :=
  ⟨by with_unfolding_all rfl, by with_unfolding_all rfl⟩

/-- C4: a line that does not match the quantity pattern but matches
`<description> <amount>` (with a valid amount literal) yields
LineItem(description, 1, amount, amount) exactly when the description
is longer than 3 characters and contains none of the summary/header
skip terms; "TURMERIC POWDER 8.99" yields ("TURMERIC POWDER", 1, 8.99,
8.99) and "TOTAL 45.00" yields no item. -/
theorem C4_receipt_single_amount :
    (∀ (s g1 amts : List Char) (a : ℚ),
        reMatch [isDigitCh, isDigitDot] s = none →
        reMatch [isDigitDot] s = some (g1, [amts]) →
        parseFloat amts = some a →
        (receiptItemOfLine s = Except.ok [⟨String.mk (stripL g1), 1, a, a⟩] ↔
          (g1.length > 3 ∧ skipTermsSummary (stripL g1) = false)))
    ∧ parse_receipt_items "TURMERIC POWDER 8.99" =
        Except.ok [⟨"TURMERIC POWDER", 1, 899/100, 899/100⟩]
    ∧ parse_receipt_items "TOTAL 45.00" = Except.ok [] := by
  refine ⟨fun s g1 amts a h1 h2 hf => ?_, by with_unfolding_all rfl, by with_unfolding_all rfl⟩
  by_cases hlen : 3 < g1.length <;> by_cases hsk : skipTermsSummary (stripL g1) = true <;>
    simp [receiptItemOfLine, h1, h2, toFloatE, hf, hlen, hsk]

/-- Witness for C4 at the "TURMERIC POWDER 8.99" line. -/
theorem C4_receipt_single_amount_witness :
    (reMatch [isDigitCh, isDigitDot] "TURMERIC POWDER 8.99".data = none
      ∧ reMatch [isDigitDot] "TURMERIC POWDER 8.99".data =
          some ("TURMERIC POWDER".data, ["8.99".data])
      ∧ parseFloat "8.99".data = some (899/100))
    ∧ (receiptItemOfLine "TURMERIC POWDER 8.99".data =
        Except.ok [⟨String.mk (stripL "TURMERIC POWDER".data), 1, 899/100, 899/100⟩] ↔
        ("TURMERIC POWDER".data.length > 3 ∧
          skipTermsSummary (stripL "TURMERIC POWDER".data) = false)) :=
  ⟨⟨by with_unfolding_all rfl, by with_unfolding_all rfl, by with_unfolding_all rfl⟩,
   C4_receipt_single_amount.1 _ _ _ _ (by with_unfolding_all rfl) (by with_unfolding_all rfl)
     (by with_unfolding_all rfl)⟩

/-- C5: a line matching `<description> <qty> <amount>` (with a valid
amount literal) whose description passes the BILL TO/SHIP TO/INVOICE
filter yields a LineItem with unit_rate = amount/qty for qty > 0 and
unit_rate = amount for qty = 0 (the division is guarded), and the
outcome is fully determined by pattern 1 — pattern 2 is never
consulted.  Concretely, "BASMATI RICE 5LB 2 12.99" yields
("BASMATI RICE 5LB", 2, 6.495, 12.99) and "ITEM PACK 0 5.00" yields
("ITEM PACK", 0, 5.00, 5.00). -/
theorem C5_receipt_qty_amount :
    (∀ (s g1 qs amts : List Char) (a : ℚ),
        reMatch [isDigitCh, isDigitDot] s = some (g1, [qs, amts]) →
        parseFloat amts = some a →
        receiptItemOfLine s =
          (if skipTermsBasic (stripL g1) then Except.ok []
           else Except.ok [⟨String.mk (stripL g1), digitsToInt qs,
              if 0 < digitsToInt qs then a / (digitsToInt qs : ℚ) else a, a⟩]))
    ∧ parse_receipt_items "BASMATI RICE 5LB 2 12.99" =
        Except.ok [⟨"BASMATI RICE 5LB", 2, 1299/200, 1299/100⟩]
    ∧ parse_receipt_items "ITEM PACK 0 5.00" = Except.ok [⟨"ITEM PACK", 0, 5, 5⟩] := by
  refine ⟨fun s g1 qs amts a h1 hf => ?_, by with_unfolding_all rfl, by with_unfolding_all rfl⟩
  by_cases hsk : skipTermsBasic (stripL g1) = true <;>
    simp [receiptItemOfLine, h1, toFloatE, hf, hsk]

/-- Witness for C5 at the "BASMATI RICE 5LB 2 12.99" line. -/
theorem C5_receipt_qty_amount_witness :
    (reMatch [isDigitCh, isDigitDot] "BASMATI RICE 5LB 2 12.99".data =
        some ("BASMATI RICE 5LB".data, ["2".data, "12.99".data])
      ∧ parseFloat "12.99".data = some (1299/100))
    ∧ receiptItemOfLine "BASMATI RICE 5LB 2 12.99".data =
        (if skipTermsBasic (stripL "BASMATI RICE 5LB".data) then Except.ok []
         else Except.ok [⟨String.mk (stripL "BASMATI RICE 5LB".data),
            digitsToInt "2".data,
            if 0 < digitsToInt "2".data then (1299/100 : ℚ) / (digitsToInt "2".data : ℚ)
            else (1299/100 : ℚ), 1299/100⟩]) :=
  ⟨⟨by with_unfolding_all rfl, by with_unfolding_all rfl⟩,
   C5_receipt_qty_amount.1 _ _ _ _ _ (by with_unfolding_all rfl) (by with_unfolding_all rfl)⟩

theorem charLt_or_eq_or_gt (a b : Char) : a = b ∨ a.toNat < b.toNat ∨ b.toNat < a.toNat := by
  rcases Nat.lt_trichotomy a.toNat b.toNat with h | h | h
  · exact Or.inr (Or.inl h)
  · left
    apply Char.ext
    have : a.val.toNat = b.val.toNat := h
    exact UInt32.toNat.inj this
  · exact Or.inr (Or.inr h)

theorem listLexLe_total : ∀ (l1 l2 : List Char), listLexLe l1 l2 = true ∨ listLexLe l2 l1 = true
  | [], l2 => by left; cases l2 <;> rfl
  | _ :: _, [] => by right; rfl
  | a :: l1, b :: l2 => by
    rcases charLt_or_eq_or_gt a b with hab | hab | hab
    · subst hab
      rcases listLexLe_total l1 l2 with h | h
      · left; simp [listLexLe, h]
      · right; simp [listLexLe, h]
    · have hne : a ≠ b := fun hEq => by simp [hEq] at hab
      left; simp [listLexLe, hne, hab]
    · have hne : b ≠ a := fun hEq => by simp [hEq] at hab
      right; simp [listLexLe, hne, hab]

theorem listLexLe_trans :
    ∀ (l1 l2 l3 : List Char),
      listLexLe l1 l2 = true → listLexLe l2 l3 = true → listLexLe l1 l3 = true
  | [], _, l3, _, _ => by cases l3 <;> rfl
  | _ :: _, [], _, h12, _ => by simp [listLexLe] at h12
  | _ :: _, _ :: _, [], _, h23 => by simp [listLexLe] at h23
  | a :: l1, b :: l2, c :: l3, h12, h23 => by
    by_cases hab : a = b
    · subst hab
      by_cases hac : a = c
      · subst hac
        simp only [listLexLe, if_pos rfl] at h12 h23 ⊢
        exact listLexLe_trans l1 l2 l3 h12 h23
      · simpa [listLexLe, hac] using h23
    · by_cases hbc : b = c
      · subst hbc
        simpa [listLexLe, hab] using h12
      · simp only [listLexLe, if_neg hab] at h12
        simp only [listLexLe, if_neg hbc] at h23
        by_cases hac : a = c
        · subst hac
          simp only [decide_eq_true_eq] at h12 h23
          omega
        · simp only [listLexLe, if_neg hac, decide_eq_true_eq] at h12 h23 ⊢
          omega

theorem listLexLe_antisymm :
    ∀ (l1 l2 : List Char), listLexLe l1 l2 = true → listLexLe l2 l1 = true → l1 = l2
  | [], [], _, _ => rfl
  | [], _ :: _, _, h21 => by simp [listLexLe] at h21
  | _ :: _, [], h12, _ => by simp [listLexLe] at h12
  | a :: l1, b :: l2, h12, h21 => by
    by_cases hab : a = b
    · subst hab
      simp only [listLexLe, if_pos rfl] at h12 h21
      rw [listLexLe_antisymm l1 l2 h12 h21]
    · have hba : b ≠ a := fun hEq => hab hEq.symm
      simp only [listLexLe, if_neg hab, decide_eq_true_eq] at h12
      simp only [listLexLe, if_neg hba, decide_eq_true_eq] at h21
      omega

theorem pdateLe_total (a b : PDate) : pdateLe a b = true ∨ pdateLe b a = true := by
  simp only [pdateLe]
  split_ifs <;> simp <;> omega

theorem pdateLe_trans (a b c : PDate) (h1 : pdateLe a b = true) (h2 : pdateLe b c = true) :
    pdateLe a c = true := by
  simp only [pdateLe] at h1 h2 ⊢
  split_ifs at h1 h2 ⊢ <;> simp_all <;> omega

theorem stringDataEq {a b : String} (h : a.data = b.data) : a = b := by
  cases a; cases b; exact congrArg String.mk h

theorem recLe_total (a b : PriceRecord) : recLe a b = true ∨ recLe b a = true := by
  simp only [recLe]
  by_cases hab : a.item_name = b.item_name
  · rw [if_pos hab, if_pos hab.symm]
    exact pdateLe_total a.date b.date
  · have hba : b.item_name ≠ a.item_name := fun hEq => hab hEq.symm
    rw [if_neg hab, if_neg hba]
    exact listLexLe_total _ _

theorem recLe_trans (a b c : PriceRecord) (h1 : recLe a b = true) (h2 : recLe b c = true) :
    recLe a c = true := by
  simp only [recLe] at h1 h2 ⊢
  by_cases hab : a.item_name = b.item_name <;> by_cases hbc : b.item_name = c.item_name
  · have hac : a.item_name = c.item_name := hab.trans hbc
    rw [if_pos hab] at h1
    rw [if_pos hbc] at h2
    rw [if_pos hac]
    exact pdateLe_trans _ _ _ h1 h2
  · have hac : a.item_name ≠ c.item_name := fun hEq => hbc (hab.symm.trans hEq)
    rw [if_neg hbc] at h2
    rw [if_neg hac]
    rw [hab]
    exact h2
  · have hac : a.item_name ≠ c.item_name := fun hEq => hab (hEq.trans hbc.symm)
    rw [if_neg hab] at h1
    rw [if_neg hac, ← hbc]
    exact h1
  · rw [if_neg hab] at h1
    rw [if_neg hbc] at h2
    by_cases hac : a.item_name = c.item_name
    · exfalso
      apply hab
      have hdata : a.item_name.data = b.item_name.data := by
        apply listLexLe_antisymm _ _ h1
        rw [show c.item_name = a.item_name from hac.symm] at h2
        exact h2
      exact stringDataEq hdata
    · rw [if_neg hac]
      exact listLexLe_trans _ _ _ h1 h2

/-- C7: the price-history builder flattens all documents' items into
raw rows, drops exactly the rows whose `%m/%d/%Y` date parse fails
(including empty dates, which never parse), and returns a permutation
of the surviving records sorted by item_name ascending then date
ascending (the `recLe` key). -/
theorem C7_price_tracking_builder :
    (∀ invoices receipts : List Document,
        List.Perm (create_price_tracking invoices receipts)
          ((rawPriceRows invoices receipts).filterMap toPriceRecord))
    ∧ (∀ invoices receipts : List Document,
        List.Sorted (fun a b => recLe a b = true) (create_price_tracking invoices receipts))
    ∧ (∀ r : RawPriceRow, toPriceRecord r = none ↔ parseMDY r.date = none)
    ∧ parseMDY "" = none := by
  refine ⟨fun invoices receipts => List.perm_insertionSort _ _,
    fun invoices receipts => ?_, fun r => ?_, by with_unfolding_all rfl⟩
  · haveI : IsTotal PriceRecord (fun a b => recLe a b = true) := ⟨recLe_total⟩
    haveI : IsTrans PriceRecord (fun a b => recLe a b = true) := ⟨recLe_trans⟩
    exact List.sorted_insertionSort _ _
  · simp [toPriceRecord, Option.map_eq_none']

theorem exceptToOption_eq_some {ε α : Type} (x : Except ε α) (a : α) :
    x.toOption = some a ↔ x = Except.ok a := by
  cases x <;> simp [Except.toOption]

theorem processGo_eq_filterMap
    (single : String → Except PyError String → Except PyError Document) :
    ∀ files, processGo single files =
      files.filterMap (fun ft => (single ft.1 ft.2).toOption)
  | [] => rfl
  | (f, c) :: rest => by
    cases h : single f c <;>
      simp [processGo, h, Except.toOption, processGo_eq_filterMap single rest]

theorem processGo_skip_error
    (single : String → Except PyError String → Except PyError Document)
    (ft : String × Except PyError String) (e : PyError)
    (hft : single ft.1 ft.2 = Except.error e) :
    ∀ (l1 l2 : List (String × Except PyError String)),
      processGo single (l1 ++ ft :: l2) = processGo single (l1 ++ l2)
  | [], l2 => by
    obtain ⟨f, c⟩ := ft
    simp only [List.nil_append]
    simp [processGo, hft]
  | (f2, c2) :: rest, l2 => by
    cases h2 : single f2 c2 <;>
      simp [processGo, h2, processGo_skip_error single ft e hft rest l2]

/-- C8: the directory processors handle files in lexicographically
sorted filename order (the sorted list is a sorted permutation of the
input); a document whose processing raises is skipped without
disturbing the rest of the batch; and the result consists of exactly
the successfully processed documents, as the sorted-order `filterMap`
of the per-document outcomes. -/
theorem C8_directory_processing :
    (∀ files, process_all_invoices files =
        (sortFiles files).filterMap (fun ft => (process_single_invoice ft.1 ft.2).toOption)
      ∧ process_all_receipts files =
        (sortFiles files).filterMap (fun ft => (process_single_receipt ft.1 ft.2).toOption)
      ∧ List.Perm (sortFiles files) files
      ∧ List.Sorted (fun a b => listLexLe a.1.data b.1.data = true) (sortFiles files))
    ∧ (∀ ft e l1 l2, process_single_invoice ft.1 ft.2 = Except.error e →
        processGo process_single_invoice (l1 ++ ft :: l2) =
          processGo process_single_invoice (l1 ++ l2))
    ∧ (∀ ft e l1 l2, process_single_receipt ft.1 ft.2 = Except.error e →
        processGo process_single_receipt (l1 ++ ft :: l2) =
          processGo process_single_receipt (l1 ++ l2))
    ∧ (∀ files d, d ∈ process_all_invoices files ↔
        ∃ ft ∈ files, process_single_invoice ft.1 ft.2 = Except.ok d)
    ∧ (∀ files d, d ∈ process_all_receipts files ↔
        ∃ ft ∈ files, process_single_receipt ft.1 ft.2 = Except.ok d) := by
  have hmem :
      ∀ (single : String → Except PyError String → Except PyError Document) files d,
        d ∈ processGo single (sortFiles files) ↔
          ∃ ft ∈ files, single ft.1 ft.2 = Except.ok d := by
    intro single files d
    rw [processGo_eq_filterMap, List.mem_filterMap]
    constructor
    · rintro ⟨ft, hmem, hsome⟩
      exact ⟨ft, (List.perm_insertionSort _ files).mem_iff.mp hmem,
        (exceptToOption_eq_some _ _).mp hsome⟩
    · rintro ⟨ft, hmem, hok⟩
      exact ⟨ft, (List.perm_insertionSort _ files).mem_iff.mpr hmem,
        (exceptToOption_eq_some _ _).mpr hok⟩
  refine ⟨fun files => ⟨processGo_eq_filterMap _ _, processGo_eq_filterMap _ _,
      List.perm_insertionSort _ _, ?_⟩,
    fun ft e l1 l2 h => processGo_skip_error _ ft e h l1 l2,
    fun ft e l1 l2 h => processGo_skip_error _ ft e h l1 l2,
    fun files d => hmem _ files d, fun files d => hmem _ files d⟩
  · haveI : IsTotal (String × Except PyError String)
        (fun a b => listLexLe a.1.data b.1.data = true) := ⟨fun a b => listLexLe_total _ _⟩
    haveI : IsTrans (String × Except PyError String)
        (fun a b => listLexLe a.1.data b.1.data = true) :=
      ⟨fun a b c => listLexLe_trans _ _ _⟩
    exact List.sorted_insertionSort _ _

/-- Witness for C8: a failing document ("a.pdf", whose rate field
"1.2.3" raises) is dropped while the rest of the batch is unaffected. -/
theorem C8_directory_processing_witness :
    process_single_invoice "a.pdf" (Except.ok badFloatInvoiceText) =
      Except.error (PyError.valueError "1.2.3")
    ∧ processGo process_single_invoice
        ([("b.pdf", Except.ok goodInvoiceText)] ++
          ("a.pdf", Except.ok badFloatInvoiceText) :: []) =
      processGo process_single_invoice ([("b.pdf", Except.ok goodInvoiceText)] ++ []) :=
  ⟨by with_unfolding_all rfl,
   C8_directory_processing.2.1 ("a.pdf", Except.ok badFloatInvoiceText)
     (PyError.valueError "1.2.3") [("b.pdf", Except.ok goodInvoiceText)] []
     (by with_unfolding_all rfl)⟩

theorem parseFloat_nonneg (l : List Char) (q : ℚ) (h : parseFloat l = some q) : 0 ≤ q := by
  unfold parseFloat at h
  split at h
  · split at h
    · cases h
    · cases h
      positivity
  · split at h
    · cases h
      positivity
    · cases h

theorem toFloatE_nonneg (l : List Char) (q : ℚ) (h : toFloatE l = Except.ok q) : 0 ≤ q := by
  unfold toFloatE at h
  cases hp : parseFloat l with
  | some q2 =>
    rw [hp] at h
    cases h
    exact parseFloat_nonneg l _ hp
  | none =>
    rw [hp] at h
    cases h

theorem invoiceItemOfLine_nonneg (s : List Char) (o : Option LineItem)
    (h : invoiceItemOfLine s = Except.ok o) :
    ∀ it ∈ o.toList, 0 ≤ it.quantity ∧ 0 ≤ it.rate ∧ 0 ≤ it.amount := by
  unfold invoiceItemOfLine at h
  split at h
  · rename_i g1 qs rs amts heq
    by_cases hsk : skipTermsBasic (stripL g1) = true
    · rw [if_pos hsk] at h
      cases h
      simp
    · rw [if_neg hsk] at h
      cases hr : toFloatE rs with
      | error e => rw [hr] at h; cases h
      | ok r =>
        rw [hr] at h
        cases ha : toFloatE amts with
        | error e => rw [ha] at h; cases h
        | ok a =>
          rw [ha] at h
          cases h
          intro it hit
          simp only [Option.toList_some, List.mem_singleton] at hit
          subst hit
          exact ⟨Int.natCast_nonneg _, toFloatE_nonneg _ _ hr, toFloatE_nonneg _ _ ha⟩
  · cases h
    simp

theorem receiptItemOfLine_nonneg (s : List Char) (its : List LineItem)
    (h : receiptItemOfLine s = Except.ok its) :
    ∀ it ∈ its, 0 ≤ it.quantity ∧ 0 ≤ it.rate ∧ 0 ≤ it.amount := by
  unfold receiptItemOfLine at h
  split at h
  · rename_i g1 qs amts heq
    by_cases hsk : skipTermsBasic (stripL g1) = true
    · rw [if_pos hsk] at h
      cases h
      simp
    · rw [if_neg hsk] at h
      cases ha : toFloatE amts with
      | error e => rw [ha] at h; cases h
      | ok a =>
        rw [ha] at h
        cases h
        intro it hit
        simp only [List.mem_singleton] at hit
        subst hit
        refine ⟨Int.natCast_nonneg _, ?_, toFloatE_nonneg _ _ ha⟩
        by_cases hq : 0 < digitsToInt qs
        · rw [if_pos hq]
          exact div_nonneg (toFloatE_nonneg _ _ ha) (by exact_mod_cast le_of_lt hq)
        · rw [if_neg hq]
          exact toFloatE_nonneg _ _ ha
  · split at h
    · rename_i g1 amts heq
      by_cases hlen : g1.length > 3
      · rw [if_pos hlen] at h
        cases ha : toFloatE amts with
        | error e => rw [ha] at h; cases h
        | ok a =>
          rw [ha] at h
          dsimp only at h
          by_cases hsk : skipTermsSummary (stripL g1) = true
          · rw [if_pos hsk] at h
            cases h
            simp
          · rw [if_neg hsk] at h
            cases h
            intro it hit
            simp only [List.mem_singleton] at hit
            subst hit
            exact ⟨by norm_num, toFloatE_nonneg _ _ ha, toFloatE_nonneg _ _ ha⟩
      · rw [if_neg hlen] at h
        cases h
        simp
    · cases h
      simp

theorem parseLinesGo_nonneg :
    ∀ (lines : List (List Char)) (b : Bool) (its : List LineItem),
      parseLinesGo b lines = Except.ok its →
      ∀ it ∈ its, 0 ≤ it.quantity ∧ 0 ≤ it.rate ∧ 0 ≤ it.amount
  | [], _, its, h => by cases h; simp
  | l :: ls, b, its, h => by
    rw [parseLinesGo] at h
    split at h
    · exact parseLinesGo_nonneg ls true its h
    · split at h
      · exact parseLinesGo_nonneg ls false its h
      · split at h
        · exact parseLinesGo_nonneg ls b its h
        · cases hio : invoiceItemOfLine (stripL l) with
          | error e => rw [hio] at h; cases h
          | ok o =>
            rw [hio] at h
            cases hrec : parseLinesGo b ls with
            | error e => rw [hrec] at h; cases h
            | ok rest =>
              rw [hrec] at h
              cases h
              intro it hit
              rcases List.mem_append.mp hit with h1 | h2
              · exact invoiceItemOfLine_nonneg _ _ hio it h1
              · exact parseLinesGo_nonneg ls b rest hrec it h2

theorem parseReceiptGo_nonneg :
    ∀ (lines : List (List Char)) (its : List LineItem),
      parseReceiptGo lines = Except.ok its →
      ∀ it ∈ its, 0 ≤ it.quantity ∧ 0 ≤ it.rate ∧ 0 ≤ it.amount
  | [], its, h => by cases h; simp
  | l :: ls, its, h => by
    rw [parseReceiptGo] at h
    split at h
    · exact parseReceiptGo_nonneg ls its h
    · cases hio : receiptItemOfLine (stripL l) with
      | error e => rw [hio] at h; cases h
      | ok o =>
        rw [hio] at h
        cases hrec : parseReceiptGo ls with
        | error e => rw [hrec] at h; cases h
        | ok rest =>
          rw [hrec] at h
          cases h
          intro it hit
          rcases List.mem_append.mp hit with h1 | h2
          · exact receiptItemOfLine_nonneg _ _ hio it h1
          · exact parseReceiptGo_nonneg ls rest hrec it h2

/-- C9 amended: every item either parser produces has quantity ≥ 0
(quantity 0 is reachable, so ≥ 1 fails), unit_rate ≥ 0 and amount ≥ 0. -/
theorem C9_item_invariants_amended :
    (∀ (text : String) (its : List LineItem), parse_line_items text = Except.ok its →
        ∀ it ∈ its, 0 ≤ it.quantity ∧ 0 ≤ it.rate ∧ 0 ≤ it.amount)
    ∧ (∀ (text : String) (its : List LineItem), parse_receipt_items text = Except.ok its →
        ∀ it ∈ its, 0 ≤ it.quantity ∧ 0 ≤ it.rate ∧ 0 ≤ it.amount) :=
  ⟨fun _ its h => parseLinesGo_nonneg _ _ its h,
   fun _ its h => parseReceiptGo_nonneg _ its h⟩

/-- Witness for the amended C9 at the example invoice text. -/
theorem C9_item_invariants_amended_witness :
    parse_line_items invoiceExampleText =
      Except.ok [⟨"BASMATI RICE 5LB", 10, 25/2, 125⟩]
    ∧ ∀ it ∈ [(⟨"BASMATI RICE 5LB", 10, 25/2, 125⟩ : LineItem)],
        0 ≤ it.quantity ∧ 0 ≤ it.rate ∧ 0 ≤ it.amount :=
  ⟨by with_unfolding_all rfl,
   C9_item_invariants_amended.1 invoiceExampleText _ (by with_unfolding_all rfl)⟩

/-- C9 counterexample: the quantity field `(\d+)` also matches "0", so
the invoice parser can produce an item with quantity 0, violating the
claimed invariant quantity ≥ 1. -/
theorem C9_item_invariants_cx :
    parse_line_items qtyZeroText = Except.ok [⟨"WIDGET", 0, 5, 0⟩]
    ∧ ¬ (1 ≤ (⟨"WIDGET", 0, 5, 0⟩ : LineItem).quantity) :=
  ⟨by with_unfolding_all rfl, by decide⟩

/-- C10: a numeric field that matches `[\d.]+` but is not a valid float
literal ("1.2.3") makes the item parsers raise an unhandled ValueError
instead of skipping the line, so the whole document's parse aborts —
the good line that parses on its own is lost — and the document
processor then drops that document while keeping the rest of the
batch. -/
theorem C10_invalid_literal_aborts :
    parse_line_items badFloatInvoiceText = Except.error (PyError.valueError "1.2.3")
    ∧ parse_line_items goodInvoiceText = Except.ok [⟨"GOOD ITEM", 2, 7/2, 7⟩]
    ∧ parse_receipt_items "SNACK BAR 1.2.3" = Except.error (PyError.valueError "1.2.3")
    ∧ process_all_invoices
        [("a.pdf", Except.ok badFloatInvoiceText), ("b.pdf", Except.ok goodInvoiceText)] =
        [⟨"b.pdf", "", "", [⟨"GOOD ITEM", 2, 7/2, 7⟩], "invoice"⟩] :=
  ⟨by with_unfolding_all rfl, by with_unfolding_all rfl, by with_unfolding_all rfl,
   by with_unfolding_all rfl⟩
